import Mathlib

/-!
Verification of the temporal issue-lifecycle analyzer (`src/analyzer_two.py`).

The analyzer is shallowly embedded: records are a Lean structure, the four
passes are Lean functions over lists of records, Python floats over exact
integer data are modelled by `Rat`, and fallible code returns
`Except PyError`.  Chart drawing (`plt.*`, `Series.plot`) is the external
rendering sink the spec excludes; each embedded pass returns exactly the
(category, value) series that the source hands to that sink.
-/

deriving instance DecidableEq for Except

/-- Python runtime errors the analyzer can raise. -/
inductive PyError where
  | attributeError
  | zeroDivisionError
  | valueError
  deriving DecidableEq

/-- Modelled from the spec: a timestamp as stored by Python `datetime` —
calendar components plus the time of day (hour/minute/second collapsed into
seconds-of-day) and microseconds.  The `model` module declaring the record
schema is not under `src/`; the spec (§3) requires only optional timestamps
supporting subtraction (`timedelta.days`) and `'%Y-%m'` formatting. -/
structure PyDateTime where
  year : Int
  month : Nat
  day : Nat
  secondOfDay : Nat
  microsecond : Nat
  deriving DecidableEq

/-- Days since the Unix epoch of a proleptic-Gregorian civil date (Howard
Hinnant's `days_from_civil`, the arithmetic underlying `datetime`
subtraction). -/
def daysFromCivil (y : Int) (m d : Nat) : Int :=
  let y' : Int := if m ≤ 2 then y - 1 else y
  let era : Int := Int.fdiv y' 400
  let yoe : Nat := (y' - era * 400).toNat
  let mp : Nat := if m ≤ 2 then m + 9 else m - 3
  let doy : Nat := (153 * mp + 2) / 5 + d - 1
  let doe : Nat := yoe * 365 + yoe / 4 - yoe / 100 + doy
  era * 146097 + (doe : Int) - 719468

/-- Microseconds per day. -/
def usPerDay : Int := 86400000000

/-- Absolute time of a `PyDateTime`, in microseconds since the epoch. -/
def totalMicroseconds (t : PyDateTime) : Int :=
  daysFromCivil t.year t.month t.day * usPerDay
    + ((t.secondOfDay * 1000000 + t.microsecond : Nat) : Int)

/-- Python `(u - c).days` for datetimes: subtraction yields a `timedelta`
normalised with `0 ≤ seconds < 86400`, so its `.days` field is the floor of
the signed difference measured in days. -/
def timedeltaDays (c u : PyDateTime) : Int :=
  Int.fdiv (totalMicroseconds u - totalMicroseconds c) usPerDay

/-- The `strftime('%Y-%m')` key, modelled as the (year, month) pair.  (For
the four-digit years of `datetime` issue data, lexicographic order on the
formatted strings agrees with lexicographic order on these pairs.) -/
def monthKey (t : PyDateTime) : Int × Nat :=
  (t.year, t.month)

/-- Modelled from the spec: the `Issue` record schema (spec §3) of the
external `model` module (not under `src/`): an identifier, two optional
timestamps, a set-like label collection, and the derived `duration_days`
attribute, absent (`none`) until the Duration Deriver sets it.  Reading the
attribute while absent raises `AttributeError`; `hasattr` tests presence.
A present `datetime` object is always truthy, so the source's
`if issue.created_date and issue.updated_date` is a presence test. -/
structure Issue where
  id : String
  created_date : Option PyDateTime
  updated_date : Option PyDateTime
  labels : List String
  duration_days : Option Int
  deriving DecidableEq

/-- The per-issue body of `calculate_issue_durations` (lines 39-41): when
both timestamps are present, set `duration_days` to their whole-day
difference; otherwise leave the record untouched. -/
def deriveDuration (r : Issue) : Issue :=
  match r.created_date, r.updated_date with
  | some c, some u => { r with duration_days := some (timedeltaDays c u) }
  | _, _ => r

/-- Embedding of `AnalyzerTwo.calculate_issue_durations` (lines 35-41).  The Python code
mutates each record in place; the spec (§9) treats the mutating and the
value-semantics formulations as observationally equivalent, and the
embedding uses the latter.  The function is total: records with a missing
timestamp are silently skipped, never an error. -/
def calculate_issue_durations (issues : List Issue) : List Issue :=
  issues.map deriveDuration

/-- Lookup in a Python dict modelled as an insertion-ordered association
list: the value stored at key `l`, if any. -/
def dictFind (l : String) : List (String × β) → Option β
  | [] => none
  | (k, x) :: d => if k = l then some x else dictFind l d

/-- The dict idiom `if l not in d: d[l] = init` followed by
`d[l] = f(d[l])`: update the value at `l` in place, appending a fresh entry
(with value `f init`) at the end when the key is new. -/
def dictUpd (init : β) (f : β → β) : List (String × β) → String → List (String × β)
  | [], l => [(l, f init)]
  | (k, x) :: d, l => if k = l then (k, f x) :: d else (k, x) :: dictUpd init f d l

/-- The keys of an association-list dict, in insertion order. -/
def dictKeys (d : List (String × β)) : List String :=
  d.map Prod.fst

/-- One iteration of the label-duration accumulation loop (lines 53-57):
append `issue.duration_days` to the list of each of the issue's labels.
`issue.duration_days` is read in the loop body, so an issue with no labels
never reads it, while an issue that has a label but no duration raises
`AttributeError`. -/
def addIssue (d : List (String × List Int)) (r : Issue) :
    Except PyError (List (String × List Int)) :=
  if r.labels.isEmpty then .ok d
  else
    match r.duration_days with
    | none => .error .attributeError
    | some v => .ok (r.labels.foldl (dictUpd [] (fun xs => xs ++ [v])) d)

/-- The `label_durations` dict built by the loop in lines 52-57. -/
def buildLabelDurations (issues : List Issue) :
    Except PyError (List (String × List Int)) :=
  issues.foldlM addIssue []

/-- The test `if self.label_filter:` (lines 47-49) — Python truthiness: the filter
comprehension runs only when the configured label is present and is not
the empty string. -/
def filterTruthy (f : Option String) (issues : List Issue) : List Issue :=
  match f with
  | none => issues
  | some l => if l = "" then issues else issues.filter (fun r => r.labels.contains l)

/-- Embedding of `AnalyzerTwo.issue_lifecycle_visualization` (lines 43-70) up to the
rendering sink: the per-label mean durations handed to `plt.bar`.
`zip(*avg_label_durations.items())` unpacked into two variables raises
`ValueError` when the dict is empty. -/
def issue_lifecycle_visualization (f : Option String) (issues : List Issue) :
    Except PyError (List (String × Rat)) :=
  match buildLabelDurations (filterTruthy f issues) with
  | .error e => .error e
  | .ok d =>
    let avg := d.map (fun p => (p.1, (p.2.sum : Rat) / (p.2.length : Rat)))
    if avg.isEmpty then .error .valueError else .ok avg

/-- Keep the first occurrence of each element (the distinct index of
`pandas.Series.value_counts`). -/
def dedupFirstAux (seen : List (Int × Nat)) : List (Int × Nat) → List (Int × Nat)
  | [] => []
  | x :: xs =>
    if seen.contains x then dedupFirstAux seen xs
    else x :: dedupFirstAux (x :: seen) xs

/-- First occurrences of the distinct elements of a list. -/
def dedupFirst (xs : List (Int × Nat)) : List (Int × Nat) :=
  dedupFirstAux [] xs

/-- Ascending order on `'%Y-%m'` keys: by year, then by month. -/
def monthLe (a b : Int × Nat) : Prop :=
  a.1 < b.1 ∨ (a.1 = b.1 ∧ a.2 ≤ b.2)

instance : DecidableRel monthLe :=
  fun a b => inferInstanceAs (Decidable (a.1 < b.1 ∨ (a.1 = b.1 ∧ a.2 ≤ b.2)))

/-- Pandas `value_counts().sort_index()`: occurrence counts of each distinct key,
listed with keys in ascending order. -/
def valueCountsSortIndex (xs : List (Int × Nat)) : List ((Int × Nat) × Nat) :=
  (List.insertionSort monthLe (dedupFirst xs)).map (fun k => (k, xs.count k))

/-- Embedding of `AnalyzerTwo.seasonal_trends_analysis` (lines 72-97) up to the
rendering sink: the two monthly frequency tables.  `pd.DataFrame(data)`
requires its column lists to have equal length and raises `ValueError`
otherwise. -/
def seasonal_trends_analysis (issues : List Issue) :
    Except PyError (List ((Int × Nat) × Nat) × List ((Int × Nat) × Nat)) :=
  let created := (issues.filterMap (fun r => r.created_date)).map monthKey
  let closed := (issues.filterMap (fun r => r.updated_date)).map monthKey
  if created.length = closed.length then
    .ok (valueCountsSortIndex created, valueCountsSortIndex closed)
  else .error .valueError

/-- Line 103: `sum(issue.duration_days for issue in issues if
hasattr(issue, 'duration_days')) / len(issues)` — the sum of the present
durations divided by the length of the whole sequence, a
`ZeroDivisionError` on an empty sequence. -/
def bottleneck_avg (issues : List Issue) : Except PyError Rat :=
  if issues.length = 0 then .error .zeroDivisionError
  else .ok (((issues.filterMap (fun r => r.duration_days)).sum : Rat) / (issues.length : Rat))

/-- Line 105: `[issue for issue in issues if issue.duration_days >
avg_duration]` — reads `duration_days` of every issue, so any issue
without it raises `AttributeError`. -/
def bottleneck_subset (issues : List Issue) (avg : Rat) : Except PyError (List Issue) :=
  if issues.all (fun r => r.duration_days.isSome) then
    .ok (issues.filter (fun r =>
      match r.duration_days with
      | some v => decide (avg < (v : Rat))
      | none => false))
  else .error .attributeError

/-- Lines 107-112: per-label occurrence counts over the bottleneck subset,
keys in first-encounter order. -/
def bottleneck_counts (bs : List Issue) : List (String × Nat) :=
  bs.foldl (fun d r => r.labels.foldl (dictUpd 0 (· + 1)) d) []

/-- The order used by `sorted(·, key=lambda x: x[1], reverse=True)`:
larger counts first. -/
def countDescLe (a b : String × Nat) : Prop :=
  b.2 ≤ a.2

instance : DecidableRel countDescLe :=
  fun a b => inferInstanceAs (Decidable (b.2 ≤ a.2))

/-- Embedding of `AnalyzerTwo.bottleneck_analysis` (lines 99-123) up to the rendering
sink.  Python's `sorted` is a stable sort, modelled by insertion sort; the
`zip(*sorted(...))` unpacking raises `ValueError` when the dict is
empty. -/
def bottleneck_analysis (issues : List Issue) : Except PyError (List (String × Nat)) :=
  match bottleneck_avg issues with
  | .error e => .error e
  | .ok avg =>
    match bottleneck_subset issues avg with
    | .error e => .error e
    | .ok bs =>
      let counts := bottleneck_counts bs
      if counts.isEmpty then .error .valueError
      else .ok (List.insertionSort countDescLe counts)

/-- The three aggregate results produced by one `run` (lines 21-33), each
with its own error behaviour.  In Python the first raised error aborts the
run; the triple, whose components the source computes in the listed order,
determines that behaviour. -/
structure RunOutput where
  lifecycle : Except PyError (List (String × Rat))
  trends : Except PyError (List ((Int × Nat) × Nat) × List ((Int × Nat) × Nat))
  bottleneck : Except PyError (List (String × Nat))
  deriving DecidableEq

/-- Embedding of `AnalyzerTwo.run` over a loaded issue list and the configured label
filter. -/
def runPipeline (f : Option String) (issues : List Issue) : RunOutput :=
  let d := calculate_issue_durations issues
  { lifecycle := issue_lifecycle_visualization f d
    trends := seasonal_trends_analysis d
    bottleneck := bottleneck_analysis d }

/-- The durations of the records of `rs` carrying label `l` — the exact
multiset the spec says each per-label mean is taken over, one contribution
per record. -/
def labelDurations (l : String) (rs : List Issue) : List Int :=
  rs.filterMap (fun r => if r.labels.contains l then r.duration_days else none)

/-- Arithmetic mean of a list of integers, as a rational. -/
def listMean (xs : List Int) : Rat :=
  (xs.sum : Rat) / (xs.length : Rat)


/-- Scenario-A style input: two records labelled {bug} and {bug, ui} with
durations 4 and 10. -/
def exScenarioA : List Issue :=
  [⟨"a1", none, none, ["bug"], some 4⟩,
   ⟨"a2", none, none, ["bug", "ui"], some 10⟩]

/-- A single record labelled {bug} with duration 5. -/
def exBug5 : Issue := ⟨"b1", none, none, ["bug"], some 5⟩

/-- One record with duration 4 next to one record that has no duration. -/
def exMixedDur : List Issue :=
  [⟨"m1", none, none, ["bug"], some 4⟩,
   ⟨"m2", none, none, ["feat"], none⟩]

/-- A labelled record without any derived duration. -/
def exNoDur : List Issue := [⟨"n1", none, none, ["bug"], none⟩]

/-- A record lacking its duration listed before a record that has one. -/
def exMissingFirst : List Issue :=
  [⟨"p1", none, none, ["bug"], none⟩,
   ⟨"p2", none, none, ["bug"], some 4⟩]

/-- Scenario-C input: durations 2, 4, 6, 20 with labels A, A, B, B. -/
def exScenarioC : List Issue :=
  [⟨"c1", none, none, ["A"], some 2⟩, ⟨"c2", none, none, ["A"], some 4⟩,
   ⟨"c3", none, none, ["B"], some 6⟩, ⟨"c4", none, none, ["B"], some 20⟩]

/-- A record with a creation timestamp but no update timestamp. -/
def exCreatedOnly : List Issue :=
  [⟨"s1", some ⟨2024, 1, 10, 0, 0⟩, none, [], none⟩]

/-- Input for the Duration Deriver: one record with both timestamps
(3.75 days apart), one record with only a creation timestamp. -/
def exDerive : List Issue :=
  [⟨"d1", some ⟨2024, 1, 10, 43200, 0⟩, some ⟨2024, 1, 14, 21600, 0⟩, ["bug"], none⟩,
   ⟨"d2", some ⟨2024, 1, 10, 0, 0⟩, none, ["ui"], none⟩]

/-- Reading `dictFind` after a `dictUpd`: the updated key reads back the updated
value, every other key is untouched. -/
theorem dictFind_dictUpd (init : β) (f : β → β) (d : List (String × β))
    (l l' : String) :
    dictFind l (dictUpd init f d l') =
      if l = l' then some (f ((dictFind l d).getD init)) else dictFind l d := by
  induction d with
  | nil =>
    by_cases h : l = l'
    · subst h; simp [dictUpd, dictFind]
    · simp [dictUpd, dictFind, h, Ne.symm h]
  | cons p d ih =>
    obtain ⟨k, x⟩ := p
    by_cases hk : k = l'
    · subst hk
      by_cases h : l = k
      · subst h; simp [dictUpd, dictFind]
      · simp [dictUpd, dictFind, h, Ne.symm h]
    · by_cases h : k = l
      · subst h
        simp [dictUpd, dictFind, hk, Ne.symm hk]
      · simp [dictUpd, dictFind, hk, h, ih]

/-- Reading `dictFind` after the inner per-label loop of a single record: every
label of the record gets its value updated once; other keys are
untouched.  Requires the record's labels to be duplicate-free (the spec
declares the label collection set-like). -/
theorem dictFind_foldl_labels (init : β) (f : β → β) (ls : List String)
    (d : List (String × β)) (l : String) (hnd : ls.Nodup) :
    dictFind l (ls.foldl (dictUpd init f) d) =
      if l ∈ ls then some (f ((dictFind l d).getD init)) else dictFind l d := by
  induction ls generalizing d with
  | nil => simp
  | cons l' ls ih =>
    obtain ⟨hl', hnd'⟩ := List.nodup_cons.mp hnd
    rw [List.foldl_cons, ih (dictUpd init f d l') hnd']
    by_cases hmem : l ∈ ls
    · have hne : l ≠ l' := fun h => hl' (h ▸ hmem)
      simp [hmem, dictFind_dictUpd, hne]
    · by_cases heq : l = l'
      · subst heq; simp [hmem, dictFind_dictUpd]
      · simp [hmem, heq, dictFind_dictUpd]

/-- Membership via `List.contains` on strings. -/
theorem contains_iff_mem {l : List String} {a : String} :
    l.contains a = true ↔ a ∈ l :=
  List.elem_iff

/-- Merge the list already accumulated at a key with newly contributed
durations: an absent key stays absent when nothing is contributed. -/
def combineL (o : Option (List Int)) (xs : List Int) : Option (List Int) :=
  match o, xs with
  | none, [] => none
  | o, xs => some (o.getD [] ++ xs)

theorem combineL_nil (o : Option (List Int)) : combineL o [] = o := by
  cases o <;> simp [combineL]

theorem combineL_ne_nil (o : Option (List Int)) {xs : List Int} (h : xs ≠ []) :
    combineL o xs = some (o.getD [] ++ xs) := by
  cases o <;> cases xs <;> simp_all [combineL]

theorem combineL_assoc (o : Option (List Int)) (a b : List Int) :
    combineL (combineL o a) b = combineL o (a ++ b) := by
  cases o <;> cases a <;> cases b <;> simp [combineL]

/-- Every record surviving the label filter is a record of the input. -/
theorem mem_filterTruthy {f : Option String} {issues : List Issue} {r : Issue}
    (h : r ∈ filterTruthy f issues) : r ∈ issues := by
  cases f with
  | none => exact h
  | some l =>
    by_cases hl : l = "" <;> simp_all [filterTruthy]

/-- The label-duration accumulation loop succeeds when every filtered
record that carries a label has a duration, and the resulting dict holds,
at each label, the previously accumulated durations followed by the
durations of exactly the processed records carrying that label. -/
theorem buildFold_ok (rs : List Issue) (d : List (String × List Int))
    (hnd : ∀ r ∈ rs, r.labels.Nodup)
    (h : ∀ r ∈ rs, r.labels ≠ [] → r.duration_days.isSome) :
    ∃ d', rs.foldlM addIssue d = Except.ok d' ∧
      ∀ l, dictFind l d' = combineL (dictFind l d) (labelDurations l rs) := by
  induction rs generalizing d with
  | nil =>
    exact ⟨d, rfl, fun l => by simp [labelDurations, combineL_nil]⟩
  | cons r rs ih =>
    have hndr := hnd r (List.mem_cons_self r rs)
    have hnd' : ∀ x ∈ rs, x.labels.Nodup := fun x hx => hnd x (List.mem_cons_of_mem r hx)
    have h' : ∀ x ∈ rs, x.labels ≠ [] → x.duration_days.isSome :=
      fun x hx => h x (List.mem_cons_of_mem r hx)
    rw [List.foldlM_cons]
    by_cases hlab : r.labels.isEmpty
    · have hnillab : r.labels = [] := List.isEmpty_iff.mp hlab
      have hstep : addIssue d r = Except.ok d := by simp [addIssue, hlab]
      rw [hstep]
      obtain ⟨d', hfold, hfind⟩ := ih d hnd' h'
      refine ⟨d', hfold, fun l => ?_⟩
      rw [hfind l]
      simp [labelDurations, hnillab, List.filterMap_cons]
    · have hlabne : r.labels ≠ [] := fun hh => by simp [hh] at hlab
      obtain ⟨v, hv⟩ := Option.isSome_iff_exists.mp
        (h r (List.mem_cons_self r rs) hlabne)
      have hstep : addIssue d r =
          Except.ok (r.labels.foldl (dictUpd [] (fun xs => xs ++ [v])) d) := by
        simp [addIssue, hlab, hv]
      rw [hstep]
      obtain ⟨d', hfold, hfind⟩ :=
        ih (r.labels.foldl (dictUpd [] (fun xs => xs ++ [v])) d) hnd' h'
      refine ⟨d', hfold, fun l => ?_⟩
      rw [hfind l, dictFind_foldl_labels _ _ _ _ _ hndr]
      have hld : labelDurations l (r :: rs) =
          (if l ∈ r.labels then [v] else []) ++ labelDurations l rs := by
        simp only [labelDurations, List.filterMap_cons, hv]
        by_cases hc : l ∈ r.labels <;> simp [hc]
      rw [hld]
      by_cases hc : l ∈ r.labels
      · rw [if_pos hc, if_pos hc]
        rw [show (some (((dictFind l d).getD []) ++ [v]) : Option (List Int)) =
            combineL (dictFind l d) [v] from (combineL_ne_nil _ (by simp)).symm]
        rw [combineL_assoc]
      · rw [if_neg hc, if_neg hc]
        simp

/-- Lookup commutes with mapping the stored values. -/
theorem dictFind_map (g : β → γ) (d : List (String × β)) (l : String) :
    dictFind l (d.map (fun p => (p.1, g p.2))) = (dictFind l d).map g := by
  induction d with
  | nil => simp [dictFind]
  | cons p d ih =>
    obtain ⟨k, x⟩ := p
    by_cases h : k = l <;> simp [dictFind, h, ih]

/-- A present label has a nonempty duration list. -/
theorem labelDurations_ne_nil {rs : List Issue} {r : Issue} {l : String} {v : Int}
    (hr : r ∈ rs) (hl : l ∈ r.labels) (hv : r.duration_days = some v) :
    labelDurations l rs ≠ [] := by
  have hmem : v ∈ labelDurations l rs := by
    apply List.mem_filterMap.mpr
    exact ⟨r, hr, by simp [hl, hv]⟩
  exact List.ne_nil_of_mem hmem

/-- Lookup after taking per-label means of the stored lists. -/
theorem dictFind_mean (d : List (String × List Int)) (l : String) :
    dictFind l (d.map (fun p => (p.1, (p.2.sum : Rat) / (p.2.length : Rat)))) =
      (dictFind l d).map (fun xs => (xs.sum : Rat) / (xs.length : Rat)) :=
  dictFind_map (fun xs => (xs.sum : Rat) / (xs.length : Rat)) d l

/-- C2: counterexample.  A filtered-in record that carries a label but has
no `duration_days` is not silently skipped: the aggregator raises
`AttributeError` (line 57 reads `issue.duration_days` unconditionally), so
no per-label means are produced at all. -/
theorem lifecycle_missing_duration_raises :
    issue_lifecycle_visualization none exMissingFirst = .error .attributeError := by
  decide

/-- C2 (amended): provided every filtered record that carries a label has a
`duration_days` value — otherwise the aggregator raises `AttributeError`
instead of skipping the record — and at least one filtered record carries a
label, the Label-Duration Aggregator returns a mapping in which every label
carried by a qualifying record is sent to the arithmetic mean of exactly
the `duration_days` values of the filtered records carrying that label
(each multi-label record contributing its duration once to each of its
labels), and labels carried by no qualifying record are absent. -/
theorem lifecycle_label_means (f : Option String) (issues : List Issue) (l : String)
    (hnd : ∀ r ∈ issues, r.labels.Nodup)
    (hdur : ∀ r ∈ filterTruthy f issues, r.labels ≠ [] → r.duration_days.isSome)
    (hne : ∃ r ∈ filterTruthy f issues, r.labels ≠ []) :
    ∃ m, issue_lifecycle_visualization f issues = .ok m ∧
      dictFind l m =
        if labelDurations l (filterTruthy f issues) = [] then none
        else some (listMean (labelDurations l (filterTruthy f issues))) := by
  have hnd' : ∀ r ∈ filterTruthy f issues, r.labels.Nodup :=
    fun r hr => hnd r (mem_filterTruthy hr)
  obtain ⟨d', hfold, hfind⟩ := buildFold_ok (filterTruthy f issues) [] hnd' hdur
  have hbuild : buildLabelDurations (filterTruthy f issues) = Except.ok d' := hfold
  obtain ⟨r, hr, hlabne⟩ := hne
  obtain ⟨l0, hl0⟩ := List.exists_mem_of_ne_nil _ hlabne
  obtain ⟨v, hv⟩ := Option.isSome_iff_exists.mp (hdur r hr hlabne)
  have hld0 : labelDurations l0 (filterTruthy f issues) ≠ [] :=
    labelDurations_ne_nil hr hl0 hv
  have hfind0 := hfind l0
  rw [combineL_ne_nil _ hld0] at hfind0
  have hd'ne : d' ≠ [] := by
    intro hnil
    rw [hnil] at hfind0
    simp [dictFind] at hfind0
  refine ⟨d'.map (fun p => (p.1, (p.2.sum : Rat) / (p.2.length : Rat))), ?_, ?_⟩
  · simp [issue_lifecycle_visualization, hbuild, List.isEmpty_iff, hd'ne]
  · rw [dictFind_mean d' l, hfind l]
    by_cases hld : labelDurations l (filterTruthy f issues) = []
    · rw [if_pos hld, hld, combineL_nil]
      simp [dictFind]
    · rw [if_neg hld, combineL_ne_nil _ hld]
      simp [dictFind, listMean]

/-- C2 witness: the amended theorem applied to Scenario-A records (labels
{bug} and {bug, ui}, durations 4 and 10), at the label "bug". -/
theorem lifecycle_label_means_witness :
    ∃ m, issue_lifecycle_visualization none exScenarioA = .ok m ∧
      dictFind "bug" m =
        if labelDurations "bug" (filterTruthy none exScenarioA) = [] then none
        else some (listMean (labelDurations "bug" (filterTruthy none exScenarioA))) :=
  lifecycle_label_means none exScenarioA "bug" (by decide) (by decide) (by decide)


/-- A record sequence in which no record carries any label. -/
def exNoLabels : List Issue := [⟨"w0", none, none, [], none⟩]

/-- Two records with equal durations: the population mean equals both, so
the strict-exceedance bottleneck subset is empty. -/
def exTie : List Issue :=
  [⟨"w1", none, none, ["x"], some 3⟩, ⟨"w2", none, none, ["y"], some 3⟩]

/-- The accumulation loop leaves the dict untouched when no processed
record carries a label. -/
theorem buildFold_all_nolabels (rs : List Issue) (d : List (String × List Int))
    (h : ∀ r ∈ rs, r.labels = []) : rs.foldlM addIssue d = Except.ok d := by
  induction rs with
  | nil => rfl
  | cons r rs ih =>
    rw [List.foldlM_cons]
    have hstep : addIssue d r = Except.ok d := by
      simp [addIssue, h r (List.mem_cons_self r rs)]
    rw [hstep]
    exact ih (fun x hx => h x (List.mem_cons_of_mem r hx))

/-- C4: counterexample.  An empty aggregate mapping is not handled by
silently skipping the chart: with filter "ui" over a single {bug} record
the per-label dict is empty and the aggregator raises `ValueError`
(line 62), and a run whose bottleneck subset is empty raises `ValueError`
at the `zip(*sorted(...))` unpacking (line 115). -/
theorem empty_aggregate_raises_cex :
    issue_lifecycle_visualization (some "ui") [exBug5] = .error .valueError ∧
    bottleneck_analysis [exBug5] = .error .valueError := by
  constructor
  · decide
  · norm_num [bottleneck_analysis, bottleneck_avg, bottleneck_subset,
      bottleneck_counts, exBug5, List.filter, List.filterMap_cons]

/-- C4 (amended): when an aggregation produces an empty mapping — every
filtered record is label-free in the Label-Duration Aggregator, or no
record exceeds the mean so the bottleneck subset contributes no label —
the rendering step is never reached, and instead of returning without
error the operation raises `ValueError`, from unpacking `zip()` of an
empty dict into two variables. -/
theorem empty_aggregate_raises (f : Option String) (issues bs : List Issue) (avg : Rat) :
    ((∀ r ∈ filterTruthy f issues, r.labels = []) →
      issue_lifecycle_visualization f issues = .error .valueError) ∧
    (bottleneck_avg bs = .ok avg →
      (∀ r ∈ bs, r.duration_days.isSome = true ∧
        ((r.duration_days.getD 0 : Int) : Rat) ≤ avg) →
      bottleneck_analysis bs = .error .valueError) := by
  constructor
  · intro h
    have hfold := buildFold_all_nolabels (filterTruthy f issues) [] h
    simp [issue_lifecycle_visualization, buildLabelDurations, hfold]
  · intro havg hall
    have hsome : bs.all (fun r => r.duration_days.isSome) = true := by
      rw [List.all_eq_true]
      exact fun r hr => (hall r hr).1
    have hfilter : bs.filter (fun r =>
        match r.duration_days with
        | some v => decide (avg < (v : Rat))
        | none => false) = [] := by
      rw [List.filter_eq_nil_iff]
      intro r hr
      obtain ⟨h1, h2⟩ := hall r hr
      obtain ⟨v, hv⟩ := Option.isSome_iff_exists.mp h1
      rw [hv] at h2 ⊢
      simpa using not_lt.mpr h2
    have hsub : bottleneck_subset bs avg = .ok [] := by
      simp [bottleneck_subset, hsome, hfilter]
    simp [bottleneck_analysis, havg, hsub, bottleneck_counts]

/-- C4 witness: the amended theorem applied to a label-free record for the
aggregator and to two equal-duration records for the bottleneck view. -/
theorem empty_aggregate_raises_witness :
    issue_lifecycle_visualization none exNoLabels = .error .valueError ∧
    bottleneck_analysis exTie = .error .valueError := by
  have havg : bottleneck_avg exTie = .ok 3 := by
    norm_num [bottleneck_avg, exTie, List.filterMap_cons]
  refine ⟨(empty_aggregate_raises none exNoLabels exTie 3).1 (by decide),
    (empty_aggregate_raises none exNoLabels exTie 3).2 havg ?_⟩
  intro r hr
  have hr' : r = exTie[0] ∨ r = exTie[1] := by
    simpa [exTie] using hr
  rcases hr' with rfl | rfl <;> exact ⟨rfl, by norm_num [exTie]⟩

/-- C1: the population mean of the Bottleneck Detector divides by the
length of the whole sequence, not by the number of records that have a
duration.  With one duration-4 record and one duration-less record the
code computes 4/2 = 2, whereas the mean over the single present duration
is 4/1 = 4. -/
theorem bottleneck_avg_counts_all :
    bottleneck_avg exMixedDur = .ok 2 ∧
    ((exMixedDur.filterMap (fun r => r.duration_days)).sum : Rat) /
      ((exMixedDur.countP (fun r => r.duration_days.isSome)) : Rat) = 4 := by
  constructor
  · norm_num [bottleneck_avg, exMixedDur, List.filterMap_cons]
  · norm_num [exMixedDur, List.filterMap_cons, List.countP_cons]

/-- C3: with a nonempty sequence in which no record has a derived duration,
the Bottleneck Detector does not fail before producing a mean — it
computes the mean 0 (the empty sum divided by the full length) and only
afterwards raises `AttributeError` while selecting the subset; with an
empty sequence it raises `ZeroDivisionError` from the division itself
rather than an explicit precondition check. -/
theorem bottleneck_no_duration_mean_zero :
    bottleneck_avg exNoDur = .ok 0 ∧
    bottleneck_analysis exNoDur = .error .attributeError ∧
    bottleneck_analysis [] = .error .zeroDivisionError := by
  refine ⟨?_, ?_, ?_⟩
  · norm_num [bottleneck_avg, exNoDur]
  · decide
  · decide

/-- C6: with one record carrying only a creation timestamp the two column
lists have lengths 1 and 0, and `pd.DataFrame(data)` raises `ValueError`
("all arrays must be of the same length") before any frequency table is
built — the code does not build the two tables independently. -/
theorem seasonal_trends_ragged_raises :
    seasonal_trends_analysis exCreatedOnly = .error .valueError := by
  decide

/-- C8: counterexample.  With the empty string as filter value, Python's
truthiness test `if self.label_filter:` disables filtering: the {bug}
record participates although its label set does not contain "", so the
participating record set is not restricted to records whose label set
contains the filter value (which would leave no participant and raise on
the empty aggregate). -/
theorem label_filter_empty_string_cex :
    issue_lifecycle_visualization (some "") [exBug5] = .ok [("bug", 5)] ∧
    issue_lifecycle_visualization none
      ([exBug5].filter (fun r => r.labels.contains "")) = .error .valueError := by
  constructor
  · norm_num [issue_lifecycle_visualization, buildLabelDurations, filterTruthy,
      addIssue, dictUpd, exBug5, List.foldlM]
  · decide

/-- C8 (amended): the label filter's scope is local to the Label-Duration
Aggregator, and for every nonempty filter value that aggregator's
participating record set is exactly the records whose label set contains
the filter value; the empty-string filter value, like an absent filter, is
falsy and disables filtering.  The trend and bottleneck components of a
filtered run are identical to those of an unfiltered run. -/
theorem label_filter_scope (l : String) (hl : l ≠ "") (issues : List Issue) :
    (runPipeline (some l) issues).lifecycle =
      issue_lifecycle_visualization none
        ((calculate_issue_durations issues).filter (fun r => r.labels.contains l)) ∧
    (runPipeline (some l) issues).trends = (runPipeline none issues).trends ∧
    (runPipeline (some l) issues).bottleneck = (runPipeline none issues).bottleneck := by
  refine ⟨?_, rfl, rfl⟩
  simp [runPipeline, issue_lifecycle_visualization, filterTruthy, hl]

/-- C8 witness: the amended theorem at filter value "ui" over the
Scenario-A records. -/
theorem label_filter_scope_witness :
    (runPipeline (some "ui") exScenarioA).lifecycle =
      issue_lifecycle_visualization none
        ((calculate_issue_durations exScenarioA).filter (fun r => r.labels.contains "ui")) ∧
    (runPipeline (some "ui") exScenarioA).trends = (runPipeline none exScenarioA).trends ∧
    (runPipeline (some "ui") exScenarioA).bottleneck = (runPipeline none exScenarioA).bottleneck :=
  label_filter_scope "ui" (by decide) exScenarioA

/-- C9: the pipeline is idempotent: re-running the Duration Deriver
rewrites each `duration_days` with the same value (the timestamps it reads
are unchanged), so a second full run on the already-derived records — and
equally a run on fresh copies of the input — produces identical lifecycle,
trend and bottleneck outputs. -/
theorem pipeline_idempotent (f : Option String) (issues : List Issue) :
    calculate_issue_durations (calculate_issue_durations issues) =
      calculate_issue_durations issues ∧
    runPipeline f (calculate_issue_durations issues) = runPipeline f issues := by
  have hder : calculate_issue_durations (calculate_issue_durations issues) =
      calculate_issue_durations issues := by
    simp only [calculate_issue_durations, List.map_map]
    apply List.map_congr_left
    intro r _
    show deriveDuration (deriveDuration r) = deriveDuration r
    cases hc : r.created_date <;> cases hu : r.updated_date <;>
      simp [deriveDuration, hc, hu]
  exact ⟨hder, by simp only [runPipeline, hder]⟩

/-- Flooring: `Int.fdiv · usPerDay` is floor division: its result is the unique
integer whose multiples of a day bracket the argument. -/
theorem fdiv_usPerDay_bounds (a : Int) :
    Int.fdiv a usPerDay * usPerDay ≤ a ∧ a < (Int.fdiv a usPerDay + 1) * usPerDay := by
  have h : Int.fdiv a usPerDay = a / 86400000000 := by
    rw [show usPerDay = 86400000000 from rfl]
    exact Int.fdiv_eq_ediv a (by norm_num)
  rw [h, show usPerDay = 86400000000 from rfl]
  omega

/-- Everything `deriveDuration` does to one record: it sets
`duration_days` to the day difference exactly when both timestamps are
present, and changes nothing else. -/
theorem deriveDuration_eq (r : Issue) :
    (∀ c u, r.created_date = some c → r.updated_date = some u →
      (deriveDuration r).duration_days = some (timedeltaDays c u)) ∧
    ((r.created_date = none ∨ r.updated_date = none) →
      (deriveDuration r).duration_days = r.duration_days) ∧
    (deriveDuration r).id = r.id ∧
    (deriveDuration r).created_date = r.created_date ∧
    (deriveDuration r).updated_date = r.updated_date ∧
    (deriveDuration r).labels = r.labels := by
  cases hc : r.created_date <;> cases hu : r.updated_date <;>
    simp [deriveDuration, hc, hu]

/-- C5: after the Duration Deriver runs, every record that had both
timestamps has `duration_days` equal to the floor of the signed difference
`updated - created` in whole days (negative when updated precedes created,
not clamped), while a record missing either timestamp keeps its
`duration_days` unchanged — in particular it still has none if it had none
— and no error is raised (the deriver is a total function on records with
missing timestamps). -/
theorem calculate_issue_durations_spec (issues : List Issue) (i : Nat)
    (hi : i < issues.length) :
    (calculate_issue_durations issues).length = issues.length ∧
    (∀ c u, (issues.get ⟨i, hi⟩).created_date = some c →
      (issues.get ⟨i, hi⟩).updated_date = some u →
      ∃ n, ((calculate_issue_durations issues).get
          ⟨i, by simpa [calculate_issue_durations] using hi⟩).duration_days = some n ∧
        n * usPerDay ≤ totalMicroseconds u - totalMicroseconds c ∧
        totalMicroseconds u - totalMicroseconds c < (n + 1) * usPerDay) ∧
    (((issues.get ⟨i, hi⟩).created_date = none ∨
        (issues.get ⟨i, hi⟩).updated_date = none) →
      ((calculate_issue_durations issues).get
          ⟨i, by simpa [calculate_issue_durations] using hi⟩).duration_days =
        (issues.get ⟨i, hi⟩).duration_days) := by
  have hget : (calculate_issue_durations issues).get
      ⟨i, by simpa [calculate_issue_durations] using hi⟩ =
      deriveDuration (issues.get ⟨i, hi⟩) := by
    simp [calculate_issue_durations]
  refine ⟨by simp [calculate_issue_durations], ?_, ?_⟩
  · intro c u hc hu
    rw [hget]
    exact ⟨timedeltaDays c u, (deriveDuration_eq _).1 c u hc hu,
      (fdiv_usPerDay_bounds (totalMicroseconds u - totalMicroseconds c)).1,
      (fdiv_usPerDay_bounds (totalMicroseconds u - totalMicroseconds c)).2⟩
  · intro h
    rw [hget]
    exact (deriveDuration_eq _).2.1 h

/-- C5 witness: the spec theorem applied to a record whose timestamps are
3.75 days apart and to a record missing its update timestamp. -/
theorem calculate_issue_durations_spec_witness :
    ((calculate_issue_durations exDerive).length = exDerive.length ∧
      ∃ n, ((calculate_issue_durations exDerive).get ⟨0, by decide⟩).duration_days = some n ∧
        n * usPerDay ≤ totalMicroseconds ⟨2024, 1, 14, 21600, 0⟩ -
          totalMicroseconds ⟨2024, 1, 10, 43200, 0⟩ ∧
        totalMicroseconds ⟨2024, 1, 14, 21600, 0⟩ -
          totalMicroseconds ⟨2024, 1, 10, 43200, 0⟩ < (n + 1) * usPerDay) ∧
    ((calculate_issue_durations exDerive).get ⟨1, by decide⟩).duration_days =
      (exDerive.get ⟨1, by decide⟩).duration_days := by
  constructor
  · obtain ⟨h1, h2, h3⟩ := calculate_issue_durations_spec exDerive 0 (by decide)
    exact ⟨h1, h2 ⟨2024, 1, 10, 43200, 0⟩ ⟨2024, 1, 14, 21600, 0⟩ rfl rfl⟩
  · obtain ⟨h1, h2, h3⟩ := calculate_issue_durations_spec exDerive 1 (by decide)
    exact h3 (Or.inr rfl)

/-- C10: the Duration Deriver's mutation is confined to `duration_days`:
the sequence keeps its length and order of records, and every record keeps
its `id`, `created_date`, `updated_date` and `labels`. -/
theorem calculate_issue_durations_frame (issues : List Issue) (i : Nat)
    (hi : i < issues.length) :
    (calculate_issue_durations issues).length = issues.length ∧
    ((calculate_issue_durations issues).get
        ⟨i, by simpa [calculate_issue_durations] using hi⟩).id =
      (issues.get ⟨i, hi⟩).id ∧
    ((calculate_issue_durations issues).get
        ⟨i, by simpa [calculate_issue_durations] using hi⟩).created_date =
      (issues.get ⟨i, hi⟩).created_date ∧
    ((calculate_issue_durations issues).get
        ⟨i, by simpa [calculate_issue_durations] using hi⟩).updated_date =
      (issues.get ⟨i, hi⟩).updated_date ∧
    ((calculate_issue_durations issues).get
        ⟨i, by simpa [calculate_issue_durations] using hi⟩).labels =
      (issues.get ⟨i, hi⟩).labels := by
  have hget : (calculate_issue_durations issues).get
      ⟨i, by simpa [calculate_issue_durations] using hi⟩ =
      deriveDuration (issues.get ⟨i, hi⟩) := by
    simp [calculate_issue_durations]
  refine ⟨by simp [calculate_issue_durations], ?_, ?_, ?_, ?_⟩ <;> rw [hget]
  · exact (deriveDuration_eq _).2.2.1
  · exact (deriveDuration_eq _).2.2.2.1
  · exact (deriveDuration_eq _).2.2.2.2.1
  · exact (deriveDuration_eq _).2.2.2.2.2

/-- C10 witness: the frame theorem at the first record of the derivation
example. -/
theorem calculate_issue_durations_frame_witness :
    (calculate_issue_durations exDerive).length = exDerive.length ∧
    ((calculate_issue_durations exDerive).get ⟨0, by decide⟩).id =
      (exDerive.get ⟨0, by decide⟩).id ∧
    ((calculate_issue_durations exDerive).get ⟨0, by decide⟩).created_date =
      (exDerive.get ⟨0, by decide⟩).created_date ∧
    ((calculate_issue_durations exDerive).get ⟨0, by decide⟩).updated_date =
      (exDerive.get ⟨0, by decide⟩).updated_date ∧
    ((calculate_issue_durations exDerive).get ⟨0, by decide⟩).labels =
      (exDerive.get ⟨0, by decide⟩).labels :=
  calculate_issue_durations_frame exDerive 0 (by decide)

/-- Reading `dictFind` after the bottleneck counting loop: each label's counter
grows by the number of processed records carrying it; a label carried by
no processed record keeps its previous (possibly absent) entry. -/
theorem dictFind_countsFold (bs : List Issue) (d : List (String × Nat))
    (hnd : ∀ r ∈ bs, r.labels.Nodup) (l : String) :
    dictFind l (bs.foldl (fun d' r => r.labels.foldl (dictUpd 0 (· + 1)) d') d) =
      if bs.countP (fun r => r.labels.contains l) = 0 then dictFind l d
      else some ((dictFind l d).getD 0 + bs.countP (fun r => r.labels.contains l)) := by
  induction bs generalizing d with
  | nil => simp
  | cons r bs ih =>
    have hndr := hnd r (List.mem_cons_self r bs)
    have hnd' : ∀ x ∈ bs, x.labels.Nodup := fun x hx => hnd x (List.mem_cons_of_mem r hx)
    rw [List.foldl_cons, ih (r.labels.foldl (dictUpd 0 (· + 1)) d) hnd']
    by_cases hm : l ∈ r.labels
    · have hinner : dictFind l (r.labels.foldl (dictUpd 0 (· + 1)) d) =
          some ((dictFind l d).getD 0 + 1) := by
        rw [dictFind_foldl_labels 0 (fun n => n + 1) r.labels d l hndr, if_pos hm]
      have hc : r.labels.contains l = true := contains_iff_mem.mpr hm
      have hcnt : List.countP (fun x => x.labels.contains l) (r :: bs) =
          List.countP (fun x => x.labels.contains l) bs + 1 := by
        rw [List.countP_cons, hc]
        simp
      rw [hcnt, hinner]
      by_cases hz : List.countP (fun x => x.labels.contains l) bs = 0
      · rw [hz, if_pos rfl, if_neg (by omega : ¬(0 + 1 = 0))]
      · rw [if_neg hz,
          if_neg (by omega : ¬(List.countP (fun x => x.labels.contains l) bs + 1 = 0)),
          Option.getD_some, Option.some.injEq]
        omega
    · have hinner : dictFind l (r.labels.foldl (dictUpd 0 (· + 1)) d) =
          dictFind l d := by
        rw [dictFind_foldl_labels 0 (fun n => n + 1) r.labels d l hndr, if_neg hm]
      have hc : r.labels.contains l = false := by
        rw [Bool.eq_false_iff]
        exact fun hcon => hm (contains_iff_mem.mp hcon)
      have hcnt : List.countP (fun x => x.labels.contains l) (r :: bs) =
          List.countP (fun x => x.labels.contains l) bs := by
        rw [List.countP_cons, hc]
        simp
      rw [hcnt, hinner]

/-- Keys: `dictUpd` appends the key at the end when new and keeps the key list
unchanged otherwise. -/
theorem dictKeys_dictUpd (init : β) (f : β → β) (d : List (String × β)) (l : String) :
    dictKeys (dictUpd init f d l) =
      if l ∈ dictKeys d then dictKeys d else dictKeys d ++ [l] := by
  induction d with
  | nil => simp [dictUpd, dictKeys]
  | cons p d ih =>
    obtain ⟨k, x⟩ := p
    by_cases hk : k = l
    · subst hk; simp [dictUpd, dictKeys]
    · have hlk : ¬l = k := fun h => hk h.symm
      simp only [dictUpd, if_neg hk, dictKeys, List.map_cons]
      rw [show dictKeys (dictUpd init f d l) = List.map Prod.fst (dictUpd init f d l)
        from rfl] at ih
      rw [ih]
      by_cases hm : l ∈ List.map Prod.fst d <;>
        simp [List.mem_cons, hm, hlk, dictKeys]

/-- Updating with `dictUpd` preserves key distinctness. -/
theorem nodup_dictKeys_dictUpd (init : β) (f : β → β) (d : List (String × β))
    (l : String) (h : (dictKeys d).Nodup) : (dictKeys (dictUpd init f d l)).Nodup := by
  rw [dictKeys_dictUpd]
  by_cases hm : l ∈ dictKeys d
  · simpa [hm] using h
  · simp [hm, List.nodup_append, h, List.disjoint_singleton]

/-- The per-label loop of one record preserves key distinctness. -/
theorem nodup_dictKeys_foldl_labels (init : β) (f : β → β) (ls : List String)
    (d : List (String × β)) (h : (dictKeys d).Nodup) :
    (dictKeys (ls.foldl (dictUpd init f) d)).Nodup := by
  induction ls generalizing d with
  | nil => exact h
  | cons a ls ih =>
    rw [List.foldl_cons]
    exact ih _ (nodup_dictKeys_dictUpd init f d a h)

/-- The bottleneck counting loop builds a dict with distinct keys. -/
theorem nodup_dictKeys_countsFold (bs : List Issue) (d : List (String × Nat))
    (h : (dictKeys d).Nodup) :
    (dictKeys (bs.foldl (fun d' r => r.labels.foldl (dictUpd 0 (· + 1)) d') d)).Nodup := by
  induction bs generalizing d with
  | nil => exact h
  | cons r bs ih =>
    rw [List.foldl_cons]
    exact ih _ (nodup_dictKeys_foldl_labels _ _ _ _ h)

/-- In a dict with distinct keys, membership of an entry determines the
lookup. -/
theorem dictFind_of_mem (d : List (String × β)) (l : String) (c : β)
    (h : (dictKeys d).Nodup) (hm : (l, c) ∈ d) : dictFind l d = some c := by
  induction d with
  | nil => simp at hm
  | cons p d ih =>
    obtain ⟨k, x⟩ := p
    have h' : k ∉ List.map Prod.fst d ∧ (List.map Prod.fst d).Nodup := by
      rw [show dictKeys ((k, x) :: d) = k :: List.map Prod.fst d from rfl] at h
      exact List.nodup_cons.mp h
    rcases List.mem_cons.mp hm with heq | hm'
    · obtain ⟨rfl, rfl⟩ := Prod.mk.injEq _ _ _ _ |>.mp heq.symm
      simp [dictFind]
    · have hkl : ¬k = l := by
        intro heq
        subst heq
        exact h'.1 (List.mem_map.mpr ⟨_, hm', rfl⟩)
      simp only [dictFind, if_neg hkl]
      exact ih h'.2 hm'

instance : IsTotal (String × Nat) countDescLe :=
  ⟨fun a b => le_total b.2 a.2⟩

instance : IsTrans (String × Nat) countDescLe :=
  ⟨fun _ _ _ hab hbc => le_trans hbc hab⟩

/-- Inserting an entry never moves it past an entry with the same count:
the entries of a given count in `orderedInsert` are those of the same
count in `x :: l`-order. -/
theorem orderedInsert_filter_count (x : String × Nat) (l : List (String × Nat)) (c : Nat) :
    (l.orderedInsert countDescLe x).filter (fun p => decide (p.2 = c)) =
      if x.2 = c then x :: l.filter (fun p => decide (p.2 = c))
      else l.filter (fun p => decide (p.2 = c)) := by
  induction l with
  | nil =>
    by_cases hx : x.2 = c <;> simp [List.orderedInsert, List.filter, hx]
  | cons b l ih =>
    by_cases hle : countDescLe x b
    · rw [List.orderedInsert, if_pos hle]
      by_cases hx : x.2 = c <;> simp [List.filter, hx]
    · rw [List.orderedInsert, if_neg hle]
      by_cases hx : x.2 = c
      · have hbne : ¬b.2 = c := by
          intro hbc
          exact hle (le_of_eq (hbc.trans hx.symm))
        simp only [List.filter_cons, ih, hx, if_pos hx]
        simp [hbne]
      · simp only [List.filter_cons, ih, hx, if_neg hx]
        by_cases hb : b.2 = c <;> simp [hb]

/-- Python's stable sort keeps entries of equal count in their original
order: filtering the sorted list at any count value gives the same list as
filtering the input. -/
theorem insertionSort_filter_count (l : List (String × Nat)) (c : Nat) :
    (List.insertionSort countDescLe l).filter (fun p => decide (p.2 = c)) =
      l.filter (fun p => decide (p.2 = c)) := by
  induction l with
  | nil => rfl
  | cons x l ih =>
    rw [List.insertionSort, orderedInsert_filter_count]
    by_cases hx : x.2 = c <;> simp [List.filter_cons, hx, ih]

/-- Inversion of a successful subset selection (line 105): every record
has a duration, and membership in the subset is exactly strict exceedance
of the mean. -/
theorem bottleneck_subset_ok {issues : List Issue} {avg : Rat} {bs : List Issue}
    (h : bottleneck_subset issues avg = .ok bs) :
    (∀ r ∈ issues, r.duration_days.isSome = true) ∧
    ∀ r, r ∈ bs ↔ r ∈ issues ∧ ∃ v, r.duration_days = some v ∧ avg < (v : Rat) := by
  by_cases hall : issues.all (fun r => r.duration_days.isSome) = true
  · rw [bottleneck_subset, if_pos hall] at h
    have hbs : issues.filter (fun r =>
        match r.duration_days with
        | some v => decide (avg < (v : Rat))
        | none => false) = bs := by
      injection h
    refine ⟨List.all_eq_true.mp hall, fun r => ?_⟩
    rw [← hbs, List.mem_filter]
    constructor
    · rintro ⟨hr, hp⟩
      refine ⟨hr, ?_⟩
      rcases hv : r.duration_days with _ | v
      · rw [hv] at hp; simp at hp
      · rw [hv] at hp; exact ⟨v, rfl, by simpa using hp⟩
    · rintro ⟨hr, v, hv, hlt⟩
      refine ⟨hr, ?_⟩
      rw [hv]
      simpa using hlt
  · rw [bottleneck_subset, if_neg hall] at h
    cases h

/-- Inversion of a successful bottleneck run: the mean and the subset were
computed, the counts dict is nonempty, and the output is the stable
descending sort of the encounter-ordered counts. -/
theorem bottleneck_analysis_ok {issues : List Issue} {out : List (String × Nat)}
    (h : bottleneck_analysis issues = .ok out) :
    ∃ avg bs, bottleneck_avg issues = .ok avg ∧
      bottleneck_subset issues avg = .ok bs ∧
      bottleneck_counts bs ≠ [] ∧
      out = List.insertionSort countDescLe (bottleneck_counts bs) := by
  unfold bottleneck_analysis at h
  cases havg : bottleneck_avg issues with
  | error e => simp only [havg] at h; exact Except.noConfusion h
  | ok avg =>
    simp only [havg] at h
    cases hsub : bottleneck_subset issues avg with
    | error e => simp only [hsub] at h; exact Except.noConfusion h
    | ok bs =>
      simp only [hsub] at h
      by_cases hemp : (bottleneck_counts bs).isEmpty
      · rw [if_pos hemp] at h; exact Except.noConfusion h
      · rw [if_neg hemp] at h
        have hout : List.insertionSort countDescLe (bottleneck_counts bs) = out := by
          injection h
        exact ⟨avg, bs, rfl, hsub, by simpa [List.isEmpty_iff] using hemp, hout.symm⟩

/-- C7: whenever the Bottleneck Detector succeeds, the selected subset
holds exactly the records whose `duration_days` strictly exceeds the
computed mean (no record with `duration_days <= avg` is counted); each
bottleneck record increments the counter of each of its set-like labels
exactly once, so every output count is the number of bottleneck records
carrying that label; and the mapping handed to rendering is a permutation
of the encounter-ordered counts, sorted by count descending, with ties
kept in encounter order (filtering at any count value preserves the
original order — the sort is stable). -/
theorem bottleneck_analysis_spec (issues : List Issue) (out : List (String × Nat))
    (hnd : ∀ r ∈ issues, r.labels.Nodup)
    (hok : bottleneck_analysis issues = .ok out) :
    ∃ avg bs, bottleneck_avg issues = .ok avg ∧
      bottleneck_subset issues avg = .ok bs ∧
      (∀ r, r ∈ bs ↔ r ∈ issues ∧ ∃ v, r.duration_days = some v ∧ avg < (v : Rat)) ∧
      (∀ l c, (l, c) ∈ out →
        c = bs.countP (fun r => r.labels.contains l) ∧ 0 < c) ∧
      out.Pairwise (fun a b => b.2 ≤ a.2) ∧
      out.Perm (bottleneck_counts bs) ∧
      (∀ c, out.filter (fun p => decide (p.2 = c)) =
        (bottleneck_counts bs).filter (fun p => decide (p.2 = c))) := by
  obtain ⟨avg, bs, havg, hsub, hcne, hout⟩ := bottleneck_analysis_ok hok
  obtain ⟨hall, hmem⟩ := bottleneck_subset_ok hsub
  have hndbs : ∀ r ∈ bs, r.labels.Nodup := fun r hr => hnd r (((hmem r).mp hr).1)
  have hperm : out.Perm (bottleneck_counts bs) := by
    rw [hout]
    exact List.perm_insertionSort _ _
  refine ⟨avg, bs, havg, hsub, hmem, ?_, ?_, hperm, ?_⟩
  · intro l c hlc
    have hmem' : (l, c) ∈ bottleneck_counts bs := hperm.subset hlc
    have hkeys : (dictKeys (bottleneck_counts bs)).Nodup :=
      nodup_dictKeys_countsFold bs [] (by simp [dictKeys])
    have hfind : dictFind l (bottleneck_counts bs) = some c :=
      dictFind_of_mem _ _ _ hkeys hmem'
    have hchar := dictFind_countsFold bs [] hndbs l
    rw [show (bs.foldl (fun d' r => r.labels.foldl (dictUpd 0 (· + 1)) d') []
        : List (String × Nat)) = bottleneck_counts bs from rfl] at hchar
    rw [hchar] at hfind
    by_cases hz : bs.countP (fun r => r.labels.contains l) = 0
    · rw [if_pos hz] at hfind
      exact absurd hfind (by simp [dictFind])
    · rw [if_neg hz] at hfind
      have heq : (dictFind l ([] : List (String × Nat))).getD 0 +
          bs.countP (fun r => r.labels.contains l) = c := by
        injection hfind
      have h0 : dictFind l ([] : List (String × Nat)) = none := rfl
      rw [h0, Option.getD_none] at heq
      exact ⟨by omega, by omega⟩
  · rw [hout]
    exact List.sorted_insertionSort countDescLe (bottleneck_counts bs)
  · intro c
    rw [hout]
    exact insertionSort_filter_count _ c

/-- C7 witness: Scenario C — durations 2, 4, 6, 20 with labels A, A, B, B:
mean 8, subset the single duration-20 record, output {B: 1}. -/
theorem bottleneck_analysis_spec_witness :
    bottleneck_analysis exScenarioC = .ok [("B", 1)] ∧
    (∃ avg bs, bottleneck_avg exScenarioC = .ok avg ∧
      bottleneck_subset exScenarioC avg = .ok bs ∧
      (∀ r, r ∈ bs ↔ r ∈ exScenarioC ∧ ∃ v, r.duration_days = some v ∧ avg < (v : Rat)) ∧
      (∀ l c, (l, c) ∈ ([(("B" : String), (1 : Nat))] : List (String × Nat)) →
        c = bs.countP (fun r => r.labels.contains l) ∧ 0 < c) ∧
      ([(("B" : String), (1 : Nat))] : List (String × Nat)).Pairwise (fun a b => b.2 ≤ a.2) ∧
      ([(("B" : String), (1 : Nat))] : List (String × Nat)).Perm (bottleneck_counts bs) ∧
      (∀ c, ([(("B" : String), (1 : Nat))] : List (String × Nat)).filter
          (fun p => decide (p.2 = c)) =
        (bottleneck_counts bs).filter (fun p => decide (p.2 = c)))) := by
  have hok : bottleneck_analysis exScenarioC = .ok [("B", 1)] := by
    norm_num [bottleneck_analysis, bottleneck_avg, bottleneck_subset,
      bottleneck_counts, exScenarioC, List.filter, List.filterMap_cons, dictUpd,
      List.insertionSort, List.orderedInsert]
  exact ⟨hok, bottleneck_analysis_spec exScenarioC [("B", 1)] (by decide) hok⟩
